import Mathlib

set_option maxHeartbeats 1000000

/-!
# Verification of the car firmware (src/Arduino/car.ino)

Shallow embedding of the Arduino sketch `car.ino`.  The sketch has three
parts relevant here:

* an acquisition scheduler: the sensor half of `loop()` together with the
  globals `pingTimer`, `data`, `currentSensor` and the per-sonar ping timer
  armed by `ping_timer` / cancelled by `timer_stop`;
* the Timer2 completion handler `echoCheck`;
* the decode / actuation half of `loop()` with `writeSpeedData`,
  `writeTurnData`, and the serial reporter `writeDistanceData`.

Machine integers: all quantities are small non-negative counters (`millis`
timestamps, distances, 3-bit bus codes), modelled as `Nat`; no arithmetic
here ever approaches the 32-bit wrap, so no explicit modulus is needed.
-/

/-! ## Compile-time constants from car.ino -/

def PING_INTERVAL : Nat := 33

def NUM_SENSORS : Nat := 3

def MAX_DISTANCE : Nat := 200

def MOVE_FORWARD : Nat := 0

def MOVE_BACKWARD : Nat := 1

def TURN_LEFT : Nat := 1

def TURN_RIGHT : Nat := 0

/-- Microseconds per centimetre of round trip, the `US_ROUNDTRIP_CM`
constant of the external NewPing library used by `echoCheck`. -/
def US_ROUNDTRIP_CM : Nat := 57

/-! ## Global state of the sketch

`pingTimer`, `data` and `currentSensor` are the globals of car.ino.
`armed` models, per sonar, whether that sonar's ping timer is active:
`sonar[i].ping_timer(echoCheck)` arms it, `sonar[i].timer_stop()` cancels
it.  `currentSensor` is declared `unsigned int` but only ever holds loop
indices `0..NUM_SENSORS-1`, so it is carried as `Fin 3`. -/

structure CarState where
  pingTimer : Fin 3 → Nat
  data : Fin 3 → Nat
  currentSensor : Fin 3
  armed : Fin 3 → Bool

/-! ## Observable events of one scheduler transition

Each constructor records one statement of the `if (millis() >= pingTimer[i])`
body of `loop()`, in program order. -/

inductive Event where
  | deadline (i : Fin 3) (t : Nat)
  | report (d0 d1 d2 : Nat)
  | stop (j : Fin 3)
  | setCur (i : Fin 3)
  | reset (i : Fin 3)
  | arm (i : Fin 3)
deriving DecidableEq

def isReport : Event → Bool
  | .report _ _ _ => true
  | _ => false

def isArm : Event → Bool
  | .arm _ => true
  | _ => false

/-! ## Micro-steps of one firing transition of `loop()`

The body of `if (millis() >= pingTimer[i])` in `loop()`, one definition per
statement, so that the state at every instant inside the transition is
expressible. -/

/-- `pingTimer[i] += PING_INTERVAL * NUM_SENSORS;` -/
def advanceDeadline (i : Fin 3) (s : CarState) : CarState :=
  { s with pingTimer :=
      Function.update s.pingTimer i (s.pingTimer i + PING_INTERVAL * NUM_SENSORS) }

/-- `sonar[currentSensor].timer_stop();` -/
def stopCurrent (s : CarState) : CarState :=
  { s with armed := Function.update s.armed s.currentSensor false }

/-- `currentSensor = i;` -/
def setCurrentTo (i : Fin 3) (s : CarState) : CarState :=
  { s with currentSensor := i }

/-- `data[currentSensor] = 0;` -/
def resetCurrentData (s : CarState) : CarState :=
  { s with data := Function.update s.data s.currentSensor 0 }

/-- `sonar[currentSensor].ping_timer(echoCheck);` -/
def armCurrent (s : CarState) : CarState :=
  { s with armed := Function.update s.armed s.currentSensor true }

/-- The complete body of `if (millis() >= pingTimer[i])` in `loop()`:
advance the deadline; if `i == 0 && currentSensor == NUM_SENSORS - 1`
call `writeDistanceData()` (recorded as a `report` event carrying the
values it prints); then stop the previous sonar's timer, switch
`currentSensor`, zero its reading, and arm its ping timer.  Returns the
final state and the ordered list of events. -/
def sensorFire (i : Fin 3) (s : CarState) : CarState × List Event :=
  (armCurrent (resetCurrentData (setCurrentTo i (stopCurrent (advanceDeadline i s)))),
   Event.deadline i (s.pingTimer i + PING_INTERVAL * NUM_SENSORS) ::
     (if i.val = 0 ∧ s.currentSensor.val = NUM_SENSORS - 1 then
        [Event.report (s.data 0) (s.data 1) (s.data 2)]
      else []) ++
     [Event.stop s.currentSensor, Event.setCur i, Event.reset i, Event.arm i])

/-- The states at the instants inside one firing transition, after each
successive statement of the body (the micro-steps of `sensorFire`). -/
def fireStates (i : Fin 3) (s : CarState) : List CarState :=
  [advanceDeadline i s,
   stopCurrent (advanceDeadline i s),
   setCurrentTo i (stopCurrent (advanceDeadline i s)),
   resetCurrentData (setCurrentTo i (stopCurrent (advanceDeadline i s))),
   armCurrent (resetCurrentData (setCurrentTo i (stopCurrent (advanceDeadline i s))))]

/-- One iteration of the `for (uint8_t i = 0; i < NUM_SENSORS; i++)` loop:
test `millis() >= pingTimer[i]` and run the body when due. -/
def sensorCheck (now : Nat) (i : Fin 3) (acc : CarState × List Event) :
    CarState × List Event :=
  if acc.1.pingTimer i ≤ now then
    ((sensorFire i acc.1).1, acc.2 ++ (sensorFire i acc.1).2)
  else acc

/-- The sensor half of `loop()`: the `for` loop over `i = 0, 1, 2`
(`NUM_SENSORS = 3`), unrolled, with `millis()` reading `now`. -/
def loopSensors (now : Nat) (s : CarState) : CarState × List Event :=
  sensorCheck now 2 (sensorCheck now 1 (sensorCheck now 0 (s, [])))

/-- Run the sensor half of `loop()` once for each time in `times`
(the successive values `millis()` reads), accumulating events. -/
def runLoop : List Nat → CarState → CarState × List Event
  | [], s => (s, [])
  | t :: rest, s =>
    ((runLoop rest (loopSensors t s).1).1,
     (loopSensors t s).2 ++ (runLoop rest (loopSensors t s).1).2)

/-! ## `setup()` -/

/-- The deadline initialisation of `setup()`:
`pingTimer[0] = millis() + 75;` then
`pingTimer[i] = pingTimer[i-1] + PING_INTERVAL;` for `i = 1, 2`. -/
def initTimerAux (base : Nat) : Nat → Nat
  | 0 => base + 75
  | n + 1 => initTimerAux base n + PING_INTERVAL

/-- The global state after `setup()` run at `millis() = t0`: readings
zeroed, staggered deadlines, `currentSensor = 0`, no sonar timer armed. -/
def initState (t0 : Nat) : CarState :=
  { pingTimer := fun i => initTimerAux t0 i.val
    data := fun _ => 0
    currentSensor := ⟨0, by omega⟩
    armed := fun _ => false }

/-! ## `echoCheck()` — the Timer2 completion handler

`valid` is the result of `sonar[currentSensor].check_timer()` (true when
the driver reports a completed echo for an outstanding ping), `pingResult`
the driver's `ping_result` in microseconds. -/

def echoCheck (valid : Bool) (pingResult : Nat) (s : CarState) : CarState :=
  if valid then
    { s with data :=
        Function.update s.data s.currentSensor (pingResult / US_ROUNDTRIP_CM) }
  else s

/-! ## Nominal timing

Under nominal timing each deadline is met by a loop iteration of its own:
iteration `k` runs at `millis() = t0 + 75 + PING_INTERVAL * k`, exactly
when the `k`-th deadline falls due. -/

def nominalTime (t0 k : Nat) : Nat := t0 + 75 + PING_INTERVAL * k

def nominalState (t0 : Nat) : Nat → CarState
  | 0 => initState t0
  | k + 1 => (loopSensors (nominalTime t0 k) (nominalState t0 k)).1

def nominalEvents (t0 k : Nat) : List Event :=
  (loopSensors (nominalTime t0 k) (nominalState t0 k)).2

/-- Number of nominal iterations among `0..k-1` that fire sensor `i`,
i.e. the size of `{j < k | j % 3 = i}` for `i < 3`, in closed form. -/
def cnt3 (i k : Nat) : Nat := (k - i + 2) / 3

/-! ## Input decode (the switch statements of `loop()`) -/

/-- `readSpeedInput()` / `readTurnInput()`: pack three digital lines into
bits 2,1,0 of a code in `[0,7]`. -/
def readBusInput (b2 b1 b0 : Bool) : Nat :=
  ((if b2 then 4 else 0) + (if b1 then 2 else 0)) + (if b0 then 1 else 0)

/-- The `switch (input & 0x03)` of `loop()` mapping the low two bits of a
bus code to an intensity percent (`speedPercent` / `turnPercent`). -/
def decodeIntensity (input : Nat) : Nat :=
  match input &&& 3 with
  | 1 => 33
  | 2 => 67
  | 3 => 100
  | _ => 0

/-- The direction argument `loop()` passes to the actuation writer:
`input >> 2`. -/
def decodeDirection (input : Nat) : Nat := input >>> 2

/-! ## Actuation output (`writeSpeedData`, `writeTurnData`) -/

/-- One actuator's hardware output: the PWM duty written by `analogWrite`
on pin 2 of the channel, and the two direction-select lines (pin 1,
pin 0), `true` = HIGH. -/
structure MotorOutput where
  duty : Nat
  line1 : Bool
  line0 : Bool
deriving DecidableEq

/-- `analogWrite(pin, percent * 2.55)`: the scale factor 2.55 = 255/100
maps percent to the 8-bit duty range; the float product is truncated to
an integer duty, i.e. `⌊percent * 255 / 100⌋`.  (For every percent the
sketch produces — 0, 33, 67, 100 — the AVR single-precision product
truncates to exactly this value.) -/
def pwmDuty (percent : Nat) : Nat := percent * 255 / 100

/-- `writeSpeedData(direction, percent)`: duty on SPEED_MOTOR_PIN2;
`switch (direction)` — MOVE_FORWARD (0): pin1 HIGH, pin0 LOW;
MOVE_BACKWARD (1): pin1 LOW, pin0 HIGH; default: both LOW. -/
def writeSpeedData (direction percent : Nat) : MotorOutput :=
  match direction with
  | 0 => ⟨pwmDuty percent, true, false⟩
  | 1 => ⟨pwmDuty percent, false, true⟩
  | _ + 2 => ⟨pwmDuty percent, false, false⟩

/-- `writeTurnData(direction, percent)`: duty on TURN_MOTOR_PIN2;
`switch (direction)` — TURN_LEFT (1): pin1 HIGH, pin0 LOW;
TURN_RIGHT (0): pin1 LOW, pin0 HIGH; default: both LOW. -/
def writeTurnData (direction percent : Nat) : MotorOutput :=
  match direction with
  | 1 => ⟨pwmDuty percent, true, false⟩
  | 0 => ⟨pwmDuty percent, false, true⟩
  | _ + 2 => ⟨pwmDuty percent, false, false⟩

/-! ## `writeDistanceData()` — the serial reporter -/

/-- The bytes `Serial.println()` appends: a carriage return and a line
feed (Arduino core semantics; the doc comment on `writeDistanceData` in
car.ino likewise shows `'\r\n'` terminators). -/
def serialPrintlnEnd : String := "\r\n"

/-- `writeDistanceData()`: for each `i`, `Serial.print(data[i])` (decimal)
then `Serial.print("\t")`; finally `Serial.println()`. -/
def writeDistanceData (data : Fin 3 → Nat) : String :=
  (List.finRange 3).foldl (fun acc i => acc ++ Nat.repr (data i) ++ "\t") ""
    ++ serialPrintlnEnd

/-! ## Trace predicates -/

/-- The value of `currentSensor` a trace prefix implies: the argument of
its last `setCur` event, if any. -/
def lastSetCur (a : Option (Fin 3)) : List Event → Option (Fin 3)
  | [] => a
  | Event.setCur i :: rest => lastSetCur (some i) rest
  | _ :: rest => lastSetCur a rest

/-- Scans a trace and checks every `report` event happens while the most
recent `setCur` (starting from `a`) designated sensor 2 — i.e. strictly
after sensor 2's slot transition and before any later sensor's. -/
def reportsAfterSlot2 (a : Option (Fin 3)) : List Event → Bool
  | [] => true
  | Event.report _ _ _ :: rest =>
      decide (a = some 2) && reportsAfterSlot2 a rest
  | Event.setCur i :: rest => reportsAfterSlot2 (some i) rest
  | _ :: rest => reportsAfterSlot2 a rest

/-- The scan position `a` agrees with the state: either it records the
current sensor, or nothing has been current yet and `currentSensor` still
holds its initial value 0. -/
def curMatches (a : Option (Fin 3)) (s : CarState) : Prop :=
  a = some s.currentSensor ∨ (a = none ∧ s.currentSensor = 0)

/-! ## Invariants -/

/-- Any armed sonar is the current one. -/
def ArmedInv (s : CarState) : Prop :=
  ∀ j : Fin 3, s.armed j = true → j = s.currentSensor

/-- At most one sonar ping timer is armed. -/
def AtMostOneArmed (s : CarState) : Prop :=
  ∀ j k : Fin 3, s.armed j = true → s.armed k = true → j = k

instance (s : CarState) : Decidable (ArmedInv s) := by
  unfold ArmedInv; infer_instance

/-- States reachable from `setup()` by scheduler transitions (a sensor
firing when due) interleaved with completion interrupts. -/
inductive Reachable : CarState → Prop
  | init (t0 : Nat) : Reachable (initState t0)
  | fire (s : CarState) (i : Fin 3) (now : Nat) :
      Reachable s → s.pingTimer i ≤ now → Reachable (sensorFire i s).1
  | echo (s : CarState) (v : Bool) (r : Nat) :
      Reachable s → Reachable (echoCheck v r s)

/-- Concrete state used to analyse simultaneous deadlines: sensors 0 and 1
due at time 100, sensor 2 not due. -/
def twoDueState : CarState :=
  { pingTimer := fun i => if i.val = 2 then 200 else 100
    data := fun _ => 0
    currentSensor := ⟨0, by omega⟩
    armed := fun _ => false }

/-- Concrete state with sensor 2 previously active, used to exercise the
reporting transition. -/
def curTwoState : CarState :=
  { pingTimer := fun _ => 100
    data := fun _ => 7
    currentSensor := ⟨2, by omega⟩
    armed := fun _ => false }

/-! ## Projection lemmas for one firing transition -/

theorem sensorFire_currentSensor (i : Fin 3) (s : CarState) :
    (sensorFire i s).1.currentSensor = i := rfl

theorem sensorFire_pingTimer_self (i : Fin 3) (s : CarState) :
    (sensorFire i s).1.pingTimer i = s.pingTimer i + PING_INTERVAL * NUM_SENSORS := by
  simp [sensorFire, armCurrent, resetCurrentData, setCurrentTo, stopCurrent, advanceDeadline]

theorem sensorFire_pingTimer_other (i j : Fin 3) (s : CarState) (h : j ≠ i) :
    (sensorFire i s).1.pingTimer j = s.pingTimer j := by
  simp [sensorFire, armCurrent, resetCurrentData, setCurrentTo, stopCurrent, advanceDeadline,
    Function.update_noteq h]

theorem sensorFire_armed_def (i j : Fin 3) (s : CarState) :
    (sensorFire i s).1.armed j =
      Function.update (Function.update s.armed s.currentSensor false) i true j := rfl

theorem sensorFire_armed (i j : Fin 3) (s : CarState) :
    (sensorFire i s).1.armed j =
      if j = i then true else if j = s.currentSensor then false else s.armed j := by
  rw [sensorFire_armed_def]
  by_cases h1 : j = i
  · subst h1; simp
  · rw [Function.update_noteq h1, if_neg h1]
    by_cases h2 : j = s.currentSensor
    · subst h2; simp
    · rw [Function.update_noteq h2, if_neg h2]

theorem sf_pt01 (s : CarState) : (sensorFire 0 s).1.pingTimer 1 = s.pingTimer 1 :=
  sensorFire_pingTimer_other 0 1 s (by decide)

theorem sf_pt02 (s : CarState) : (sensorFire 0 s).1.pingTimer 2 = s.pingTimer 2 :=
  sensorFire_pingTimer_other 0 2 s (by decide)

theorem sf_pt12 (s : CarState) : (sensorFire 1 s).1.pingTimer 2 = s.pingTimer 2 :=
  sensorFire_pingTimer_other 1 2 s (by decide)

/-! ## The arming invariant -/

theorem armedInv_fire (i : Fin 3) (s : CarState) (h : ArmedInv s) :
    ArmedInv (sensorFire i s).1 := by
  intro j hj
  rw [sensorFire_currentSensor]
  rw [sensorFire_armed] at hj
  by_cases h1 : j = i
  · exact h1
  · rw [if_neg h1] at hj
    by_cases h2 : j = s.currentSensor
    · rw [if_pos h2] at hj; exact absurd hj (by simp)
    · rw [if_neg h2] at hj; exact absurd (h j hj) h2

theorem armedInv_sensorCheck (now : Nat) (i : Fin 3) (acc : CarState × List Event)
    (h : ArmedInv acc.1) : ArmedInv (sensorCheck now i acc).1 := by
  unfold sensorCheck
  split
  · exact armedInv_fire i acc.1 h
  · exact h

theorem armedInv_loopSensors (now : Nat) (s : CarState) (h : ArmedInv s) :
    ArmedInv (loopSensors now s).1 :=
  armedInv_sensorCheck now 2 _ (armedInv_sensorCheck now 1 _ (armedInv_sensorCheck now 0 _ h))

theorem armedInv_echo (v : Bool) (r : Nat) (s : CarState) (h : ArmedInv s) :
    ArmedInv (echoCheck v r s) := by
  intro j hj
  cases v
  · exact h j hj
  · exact h j hj

/-! ## Nominal-timing evaluation -/

theorem sensorCheck_due (now : Nat) (i : Fin 3) (acc : CarState × List Event)
    (h : acc.1.pingTimer i ≤ now) :
    sensorCheck now i acc = ((sensorFire i acc.1).1, acc.2 ++ (sensorFire i acc.1).2) :=
  if_pos h

theorem sensorCheck_skip (now : Nat) (i : Fin 3) (acc : CarState × List Event)
    (h : ¬ acc.1.pingTimer i ≤ now) :
    sensorCheck now i acc = acc :=
  if_neg h

theorem loopSensors_fire_only (now : Nat) (s : CarState) (r : Fin 3)
    (hdue : s.pingTimer r ≤ now)
    (hnot : ∀ j : Fin 3, j ≠ r → now < s.pingTimer j) :
    loopSensors now s = sensorFire r s := by
  rcases r with ⟨rv, hrv⟩
  have hnotv : ∀ j : Fin 3, j.val ≠ rv → now < s.pingTimer j :=
    fun j hj => hnot j (fun h => hj (by rw [h]))
  interval_cases rv
  · show loopSensors now s = sensorFire 0 s
    have hd : s.pingTimer 0 ≤ now := hdue
    have h1 : ¬ (sensorFire 0 s).1.pingTimer 1 ≤ now := by
      rw [sf_pt01]; exact not_le.mpr (hnotv 1 (by decide))
    have h2 : ¬ (sensorFire 0 s).1.pingTimer 2 ≤ now := by
      rw [sf_pt02]; exact not_le.mpr (hnotv 2 (by decide))
    have e0 : sensorCheck now 0 (s, []) = ((sensorFire 0 s).1, [] ++ (sensorFire 0 s).2) :=
      sensorCheck_due now 0 (s, []) hd
    have e1 : sensorCheck now 1 ((sensorFire 0 s).1, [] ++ (sensorFire 0 s).2)
        = ((sensorFire 0 s).1, [] ++ (sensorFire 0 s).2) :=
      sensorCheck_skip now 1 _ h1
    have e2 : sensorCheck now 2 ((sensorFire 0 s).1, [] ++ (sensorFire 0 s).2)
        = ((sensorFire 0 s).1, [] ++ (sensorFire 0 s).2) :=
      sensorCheck_skip now 2 _ h2
    unfold loopSensors
    rw [e0, e1, e2]
    simp
  · show loopSensors now s = sensorFire 1 s
    have hd : s.pingTimer 1 ≤ now := hdue
    have h0 : ¬ s.pingTimer 0 ≤ now := not_le.mpr (hnotv 0 (by decide))
    have h2 : ¬ (sensorFire 1 s).1.pingTimer 2 ≤ now := by
      rw [sf_pt12]; exact not_le.mpr (hnotv 2 (by decide))
    have e0 : sensorCheck now 0 (s, []) = (s, []) := sensorCheck_skip now 0 (s, []) h0
    have e1 : sensorCheck now 1 (s, []) = ((sensorFire 1 s).1, [] ++ (sensorFire 1 s).2) :=
      sensorCheck_due now 1 (s, []) hd
    have e2 : sensorCheck now 2 ((sensorFire 1 s).1, [] ++ (sensorFire 1 s).2)
        = ((sensorFire 1 s).1, [] ++ (sensorFire 1 s).2) :=
      sensorCheck_skip now 2 _ h2
    unfold loopSensors
    rw [e0, e1, e2]
    simp
  · show loopSensors now s = sensorFire 2 s
    have hd : s.pingTimer 2 ≤ now := hdue
    have h0 : ¬ s.pingTimer 0 ≤ now := not_le.mpr (hnotv 0 (by decide))
    have h1 : ¬ s.pingTimer 1 ≤ now := not_le.mpr (hnotv 1 (by decide))
    have e0 : sensorCheck now 0 (s, []) = (s, []) := sensorCheck_skip now 0 (s, []) h0
    have e1 : sensorCheck now 1 (s, []) = (s, []) := sensorCheck_skip now 1 (s, []) h1
    have e2 : sensorCheck now 2 (s, []) = ((sensorFire 2 s).1, [] ++ (sensorFire 2 s).2) :=
      sensorCheck_due now 2 (s, []) hd
    unfold loopSensors
    rw [e0, e1, e2]
    simp

/-- With the invariant deadlines of nominal iteration `k`, the loop
iteration at `nominalTime t0 k` fires exactly sensor `k % 3`. -/
theorem fire_of_inv (t0 k : Nat) (s : CarState)
    (hpt : ∀ i : Fin 3, s.pingTimer i
      = t0 + 75 + PING_INTERVAL * i.val + PING_INTERVAL * NUM_SENSORS * cnt3 i.val k) :
    loopSensors (nominalTime t0 k) s = sensorFire ⟨k % 3, by omega⟩ s := by
  apply loopSensors_fire_only
  · rw [hpt]
    show t0 + 75 + PING_INTERVAL * (k % 3) + PING_INTERVAL * NUM_SENSORS * cnt3 (k % 3) k
      ≤ nominalTime t0 k
    simp only [PING_INTERVAL, NUM_SENSORS, cnt3, nominalTime]
    omega
  · intro j hj
    have hjv : j.val ≠ k % 3 := fun h => hj (Fin.ext h)
    have hlt : j.val < 3 := j.isLt
    rw [hpt]
    show nominalTime t0 k
      < t0 + 75 + PING_INTERVAL * j.val + PING_INTERVAL * NUM_SENSORS * cnt3 j.val k
    simp only [PING_INTERVAL, NUM_SENSORS, cnt3, nominalTime]
    omega

/-- Invariant of the nominal run: after `k` iterations every deadline has
its closed form and `currentSensor` is the sensor of the last iteration. -/
theorem nominal_inv (t0 k : Nat) :
    (∀ i : Fin 3, (nominalState t0 k).pingTimer i
      = t0 + 75 + PING_INTERVAL * i.val + PING_INTERVAL * NUM_SENSORS * cnt3 i.val k)
    ∧ (nominalState t0 k).currentSensor.val = (k - 1) % 3 := by
  induction k with
  | zero =>
    constructor
    · intro i
      rcases i with ⟨iv, hiv⟩
      interval_cases iv <;>
        simp [nominalState, initState, initTimerAux, cnt3, PING_INTERVAL, NUM_SENSORS]
    · rfl
  | succ k ih =>
    obtain ⟨hpt, _⟩ := ih
    have hstate : nominalState t0 (k + 1)
        = (sensorFire ⟨k % 3, by omega⟩ (nominalState t0 k)).1 := by
      show (loopSensors (nominalTime t0 k) (nominalState t0 k)).1 = _
      rw [fire_of_inv t0 k _ hpt]
    constructor
    · intro i
      rw [hstate]
      by_cases hi : i = (⟨k % 3, by omega⟩ : Fin 3)
      · rw [hi, sensorFire_pingTimer_self, hpt]
        show t0 + 75 + PING_INTERVAL * (k % 3) + PING_INTERVAL * NUM_SENSORS * cnt3 (k % 3) k
            + PING_INTERVAL * NUM_SENSORS
          = t0 + 75 + PING_INTERVAL * (k % 3) + PING_INTERVAL * NUM_SENSORS * cnt3 (k % 3) (k + 1)
        simp only [PING_INTERVAL, NUM_SENSORS, cnt3]
        omega
      · rw [sensorFire_pingTimer_other _ _ _ hi, hpt]
        have hiv : i.val ≠ k % 3 := fun h => hi (Fin.ext h)
        have hlt : i.val < 3 := i.isLt
        have hc : cnt3 i.val (k + 1) = cnt3 i.val k := by
          simp only [cnt3]; omega
        rw [hc]
    · rw [hstate, sensorFire_currentSensor]
      show k % 3 = (k + 1 - 1) % 3
      simp

/-- The events of nominal iteration `k` are those of the firing of sensor
`k % 3`. -/
theorem nominalEvents_eq (t0 k : Nat) :
    nominalEvents t0 k = (sensorFire ⟨k % 3, by omega⟩ (nominalState t0 k)).2 := by
  show (loopSensors (nominalTime t0 k) (nominalState t0 k)).2 = _
  rw [fire_of_inv t0 k _ (nominal_inv t0 k).1]

/-- The only arming event of one firing transition is the arm of the fired
sensor. -/
theorem sensorFire_filter_arm (i : Fin 3) (s : CarState) :
    (sensorFire i s).2.filter isArm = [Event.arm i] := by
  unfold sensorFire
  by_cases h : i.val = 0 ∧ s.currentSensor.val = NUM_SENSORS - 1 <;>
    simp [h, isArm]

/-- A firing transition reports exactly when it re-arms sensor 0 with the
previously active sensor being the last one. -/
theorem sensorFire_report_count (i : Fin 3) (s : CarState) :
    (sensorFire i s).2.countP isReport
      = if i.val = 0 ∧ s.currentSensor.val = NUM_SENSORS - 1 then 1 else 0 := by
  unfold sensorFire
  by_cases h : i.val = 0 ∧ s.currentSensor.val = NUM_SENSORS - 1 <;>
    simp [h, isReport]

/-! ## Trace lemmas: every report happens in sensor 2's slot -/

theorem lastSetCur_append (a : Option (Fin 3)) (l1 l2 : List Event) :
    lastSetCur a (l1 ++ l2) = lastSetCur (lastSetCur a l1) l2 := by
  induction l1 generalizing a with
  | nil => rfl
  | cons e rest ih => cases e <;> simp [lastSetCur, ih]

theorem reportsAfterSlot2_append (a : Option (Fin 3)) (l1 l2 : List Event) :
    reportsAfterSlot2 a (l1 ++ l2)
      = (reportsAfterSlot2 a l1 && reportsAfterSlot2 (lastSetCur a l1) l2) := by
  induction l1 generalizing a with
  | nil => simp [reportsAfterSlot2, lastSetCur]
  | cons e rest ih => cases e <;> simp [reportsAfterSlot2, lastSetCur, ih, Bool.and_assoc]

theorem fire_trace_ok (i : Fin 3) (s : CarState) (a : Option (Fin 3))
    (h : curMatches a s) :
    reportsAfterSlot2 a (sensorFire i s).2 = true
    ∧ lastSetCur a (sensorFire i s).2 = some i := by
  unfold sensorFire
  by_cases hg : i.val = 0 ∧ s.currentSensor.val = NUM_SENSORS - 1
  · have hcur : s.currentSensor = 2 := Fin.ext hg.2
    have ha : a = some 2 := by
      rcases h with h | ⟨_, h2⟩
      · rw [h, hcur]
      · rw [h2] at hcur; exact absurd hcur (by decide)
    simp [hg, ha, reportsAfterSlot2, lastSetCur]
  · simp [hg, reportsAfterSlot2, lastSetCur]

theorem check_trace_ok (now : Nat) (i : Fin 3) (acc : CarState × List Event)
    (a : Option (Fin 3))
    (h : curMatches (lastSetCur a acc.2) acc.1)
    (hr : reportsAfterSlot2 a acc.2 = true) :
    curMatches (lastSetCur a (sensorCheck now i acc).2) (sensorCheck now i acc).1
    ∧ reportsAfterSlot2 a (sensorCheck now i acc).2 = true := by
  unfold sensorCheck
  split
  · constructor
    · rw [lastSetCur_append, (fire_trace_ok i acc.1 _ h).2]
      exact Or.inl (by rw [sensorFire_currentSensor])
    · rw [reportsAfterSlot2_append, hr, (fire_trace_ok i acc.1 _ h).1]
      rfl
  · exact ⟨h, hr⟩

theorem loopSensors_trace_ok (now : Nat) (s : CarState) (a : Option (Fin 3))
    (h : curMatches a s) :
    curMatches (lastSetCur a (loopSensors now s).2) (loopSensors now s).1
    ∧ reportsAfterSlot2 a (loopSensors now s).2 = true := by
  have h0 := check_trace_ok now 0 (s, []) a h rfl
  have h1 := check_trace_ok now 1 _ a h0.1 h0.2
  have h2 := check_trace_ok now 2 _ a h1.1 h1.2
  exact h2

theorem runLoop_trace_ok (times : List Nat) (s : CarState) (a : Option (Fin 3))
    (h : curMatches a s) :
    reportsAfterSlot2 a (runLoop times s).2 = true := by
  induction times generalizing s a with
  | nil => rfl
  | cons t rest ih =>
    show reportsAfterSlot2 a ((loopSensors t s).2 ++ (runLoop rest (loopSensors t s).1).2)
      = true
    rw [reportsAfterSlot2_append, (loopSensors_trace_ok t s a h).2,
      ih (loopSensors t s).1 _ (loopSensors_trace_ok t s a h).1]
    rfl

/-! ## Claims -/

/-- C3: for every 3-bit command code `c` in `[0,7]` read from either bus,
the decoded intensity percent is determined solely by the low two bits of
`c` via the exact table `0→0, 1→33, 2→67, 3→100`, independent of bit 2,
and the decoded direction is `c` shifted right by 2. -/
theorem c3_decode_table (c : Nat) (hc : c < 8) :
    (c % 4 = 0 → decodeIntensity c = 0)
    ∧ (c % 4 = 1 → decodeIntensity c = 33)
    ∧ (c % 4 = 2 → decodeIntensity c = 67)
    ∧ (c % 4 = 3 → decodeIntensity c = 100)
    ∧ decodeIntensity c = decodeIntensity (c % 4)
    ∧ decodeDirection c = c / 4 := by
  interval_cases c <;> refine ⟨?_, ?_, ?_, ?_, ?_, ?_⟩ <;> decide

/-- C3 witness: code `0b101` — intensity from the low bits (33), direction
bit 1. -/
theorem c3_decode_table_witness :
    (5 : Nat) < 8 ∧ (5 % 4 = 1 → decodeIntensity 5 = 33) ∧ decodeDirection 5 = 5 / 4 :=
  ⟨by decide, (c3_decode_table 5 (by decide)).2.1, (c3_decode_table 5 (by decide)).2.2.2.2.2⟩

/-- C4: each recognized direction enumerant selects its own two-line
pattern — direction 0 gets the forward (speed) / right (turn) pattern,
not neutral — and any direction outside the two enumerants drives both
direction lines LOW. -/
theorem c4_direction_fallback (d p : Nat) :
    (d = MOVE_FORWARD → writeSpeedData d p = ⟨pwmDuty p, true, false⟩)
    ∧ (d = MOVE_BACKWARD → writeSpeedData d p = ⟨pwmDuty p, false, true⟩)
    ∧ (d = TURN_RIGHT → writeTurnData d p = ⟨pwmDuty p, false, true⟩)
    ∧ (d = TURN_LEFT → writeTurnData d p = ⟨pwmDuty p, true, false⟩)
    ∧ (2 ≤ d → writeSpeedData d p = ⟨pwmDuty p, false, false⟩
        ∧ writeTurnData d p = ⟨pwmDuty p, false, false⟩)
    ∧ (MotorOutput.mk (pwmDuty p) true false ≠ ⟨pwmDuty p, false, false⟩
        ∧ MotorOutput.mk (pwmDuty p) false true ≠ ⟨pwmDuty p, false, false⟩
        ∧ MotorOutput.mk (pwmDuty p) true false ≠ ⟨pwmDuty p, false, true⟩) := by
  refine ⟨?_, ?_, ?_, ?_, ?_, ?_⟩
  · rintro rfl; rfl
  · rintro rfl; rfl
  · rintro rfl; rfl
  · rintro rfl; rfl
  · intro hd
    obtain ⟨m, rfl⟩ : ∃ m, d = m + 2 := ⟨d - 2, by omega⟩
    exact ⟨rfl, rfl⟩
  · refine ⟨?_, ?_, ?_⟩ <;> simp [MotorOutput.mk.injEq]
  
/-- C4 witness: forward at 33 percent, right turn at 0 percent, and a
defensive out-of-range direction 2. -/
theorem c4_direction_fallback_witness :
    writeSpeedData MOVE_FORWARD 33 = ⟨pwmDuty 33, true, false⟩
    ∧ writeTurnData TURN_RIGHT 0 = ⟨pwmDuty 0, false, true⟩
    ∧ writeSpeedData 2 33 = ⟨pwmDuty 33, false, false⟩
    ∧ writeTurnData 2 33 = ⟨pwmDuty 33, false, false⟩ :=
  ⟨(c4_direction_fallback MOVE_FORWARD 33).1 rfl,
   (c4_direction_fallback TURN_RIGHT 0).2.2.1 rfl,
   ((c4_direction_fallback 2 33).2.2.2.2.1 (by omega)).1,
   ((c4_direction_fallback 2 33).2.2.2.2.1 (by omega)).2⟩

/-- C5: an invalid completion (driver reports no outstanding armed
request) leaves the whole state — in particular the reading buffer —
unchanged; a valid completion stores the computed distance, and only at
index `currentSensor`. -/
theorem c5_spurious_completion (v : Bool) (r : Nat) (s : CarState) :
    (v = false → echoCheck v r s = s)
    ∧ (v = true → echoCheck v r s =
        { s with data :=
            Function.update s.data s.currentSensor (r / US_ROUNDTRIP_CM) })
    ∧ (∀ j : Fin 3, j ≠ s.currentSensor → (echoCheck v r s).data j = s.data j) := by
  refine ⟨?_, ?_, ?_⟩
  · rintro rfl; rfl
  · rintro rfl; rfl
  · intro j hj
    cases v
    · rfl
    · show Function.update s.data s.currentSensor (r / US_ROUNDTRIP_CM) j = s.data j
      exact Function.update_noteq hj _ _

/-- C5 witness: a spurious completion at the initial state, and a valid
one writing only index 0. -/
theorem c5_spurious_completion_witness :
    echoCheck false 570 (initState 0) = initState 0
    ∧ echoCheck true 570 (initState 0) =
        { initState 0 with data :=
            (Function.update (initState 0).data (initState 0).currentSensor
              (570 / US_ROUNDTRIP_CM)) }
    ∧ (echoCheck true 570 (initState 0)).data 1 = (initState 0).data 1 :=
  ⟨(c5_spurious_completion false 570 (initState 0)).1 rfl,
   (c5_spurious_completion true 570 (initState 0)).2.1 rfl,
   (c5_spurious_completion true 570 (initState 0)).2.2 1 (by decide)⟩

/-- C9: the duty written to the PWM output is the intensity percent scaled
by 2.55 and truncated to an integer: 0→0, 33→84, 67→170, 100→255, for
both actuators. -/
theorem c9_pwm_scale (d p : Nat) :
    pwmDuty p = p * 255 / 100
    ∧ (writeSpeedData d p).duty = pwmDuty p
    ∧ (writeTurnData d p).duty = pwmDuty p
    ∧ pwmDuty 0 = 0 ∧ pwmDuty 33 = 84 ∧ pwmDuty 67 = 170 ∧ pwmDuty 100 = 255 := by
  refine ⟨rfl, ?_, ?_, by decide, by decide, by decide, by decide⟩
  · rcases d with _ | _ | d <;> rfl
  · rcases d with _ | _ | d <;> rfl

/-- C7 counterexample: with all three readings 0 the line the code emits
is not `0\t0\t0\t\n` — `Serial.println()` terminates with CR LF, not a
bare LF. -/
theorem c7_counterexample :
    writeDistanceData (fun _ => 0) ≠ "0\t0\t0\t\n" := by decide

/-- C7 (amended): every line is the three readings in id order, each as a
decimal integer followed by the single tab separator, terminated by the
CR LF pair that `Serial.println()` emits; with all readings 0 the line is
`0\t0\t0\t\r\n`. -/
theorem c7_line_format (d : Fin 3 → Nat) :
    writeDistanceData d
      = Nat.repr (d 0) ++ "\t" ++ Nat.repr (d 1) ++ "\t" ++ Nat.repr (d 2) ++ "\t"
        ++ "\r\n"
    ∧ writeDistanceData (fun _ => 0) = "0\t0\t0\t\r\n" := by
  constructor
  · rfl
  · decide

/-- C2 counterexample: at time 100 both sensor 0 and sensor 1 are due
(sensor 2 is not); at the end of the iteration `currentSensor` is 1, not
the lowest due id 0 — the claimed arbitration winner is wrong. -/
theorem c2_counterexample :
    twoDueState.pingTimer 0 ≤ 100 ∧ twoDueState.pingTimer 1 ≤ 100
    ∧ ¬ twoDueState.pingTimer 2 ≤ 100
    ∧ (loopSensors 100 twoDueState).1.currentSensor ≠ 0 := by decide

/-- C2 (amended): simultaneously due sensors are processed in increasing
id order, but the HIGHEST due id wins arbitration — it ends the iteration
as `currentSensor`, and each lower due id's ranging request is superseded
(its ping cancelled) until its next deadline; the only armed sensor at
the end is the final `currentSensor`. -/
theorem c2_highest_due_wins (now : Nat) (s : CarState) :
    ((loopSensors now s).1.currentSensor =
      (if s.pingTimer 2 ≤ now then 2
       else if s.pingTimer 1 ≤ now then 1
       else if s.pingTimer 0 ≤ now then 0
       else s.currentSensor))
    ∧ ((loopSensors now s).2.filter isArm =
        (if s.pingTimer 0 ≤ now then [Event.arm 0] else []) ++
        (if s.pingTimer 1 ≤ now then [Event.arm 1] else []) ++
        (if s.pingTimer 2 ≤ now then [Event.arm 2] else []))
    ∧ (ArmedInv s → ArmedInv (loopSensors now s).1) := by
  refine ⟨?_, ?_, fun h => armedInv_loopSensors now s h⟩ <;>
    (by_cases h0 : s.pingTimer 0 ≤ now <;> by_cases h1 : s.pingTimer 1 ≤ now <;>
      by_cases h2 : s.pingTimer 2 ≤ now <;>
      simp [loopSensors, sensorCheck, h0, h1, h2, sf_pt01, sf_pt02, sf_pt12,
        sensorFire_currentSensor, List.filter_append, sensorFire_filter_arm])

/-- C2 amended witness: on the concrete two-due state the winner is the
highest due id (sensor 1) and the arming invariant is preserved. -/
theorem c2_highest_due_wins_witness :
    ((loopSensors 100 twoDueState).1.currentSensor =
      (if twoDueState.pingTimer 2 ≤ 100 then 2
       else if twoDueState.pingTimer 1 ≤ 100 then 1
       else if twoDueState.pingTimer 0 ≤ 100 then 0
       else twoDueState.currentSensor))
    ∧ ArmedInv (loopSensors 100 twoDueState).1 :=
  ⟨(c2_highest_due_wins 100 twoDueState).1,
   (c2_highest_due_wins 100 twoDueState).2.2 (by decide)⟩

/-- C6: from any reachable state, at most one sonar is armed at every
instant — including every micro-instant inside a firing transition, whose
disarm strictly precedes its arm — and the completion handler never
touches `currentSensor`, the deadlines, the armed timers, or any reading
other than `data[currentSensor]`. -/
theorem c6_single_armed :
    (∀ s : CarState, Reachable s → ArmedInv s)
    ∧ (∀ (s : CarState) (i : Fin 3), ArmedInv s →
        ∀ s' ∈ fireStates i s, ArmedInv s' ∧ AtMostOneArmed s')
    ∧ (∀ (s : CarState) (i : Fin 3), ArmedInv s →
        ∀ j : Fin 3, (setCurrentTo i (stopCurrent (advanceDeadline i s))).armed j = false)
    ∧ (∀ (v : Bool) (r : Nat) (s : CarState),
        (echoCheck v r s).currentSensor = s.currentSensor
        ∧ (echoCheck v r s).pingTimer = s.pingTimer
        ∧ (echoCheck v r s).armed = s.armed
        ∧ (∀ j : Fin 3, j ≠ s.currentSensor → (echoCheck v r s).data j = s.data j)) := by
  have key : ∀ s' : CarState, ArmedInv s' → AtMostOneArmed s' :=
    fun s' h' j k hj hk => (h' j hj).trans (h' k hk).symm
  refine ⟨?_, ?_, ?_, ?_⟩
  · intro s h
    induction h with
    | init t0 => intro j hj; exact absurd hj (by simp [initState])
    | fire s i now _ _ ih => exact armedInv_fire i s ih
    | echo s v r _ ih => exact armedInv_echo v r s ih
  · intro s i h s' hs'
    have inv : ArmedInv s' := by
      simp only [fireStates, List.mem_cons, List.not_mem_nil, or_false] at hs'
      rcases hs' with rfl | rfl | rfl | rfl | rfl
      · exact fun j hj => h j hj
      · intro j hj
        by_cases hc : j = s.currentSensor
        · exact hc
        · rw [show (stopCurrent (advanceDeadline i s)).armed
              = Function.update s.armed s.currentSensor false from rfl,
            Function.update_noteq hc] at hj
          exact h j hj
      · intro j hj
        by_cases hc : j = s.currentSensor
        · rw [show (setCurrentTo i (stopCurrent (advanceDeadline i s))).armed
              = Function.update s.armed s.currentSensor false from rfl, hc,
            Function.update_same] at hj
          exact absurd hj (by simp)
        · rw [show (setCurrentTo i (stopCurrent (advanceDeadline i s))).armed
              = Function.update s.armed s.currentSensor false from rfl,
            Function.update_noteq hc] at hj
          exact absurd (h j hj) hc
      · intro j hj
        by_cases hc : j = s.currentSensor
        · rw [show (resetCurrentData (setCurrentTo i (stopCurrent (advanceDeadline i s)))).armed
              = Function.update s.armed s.currentSensor false from rfl, hc,
            Function.update_same] at hj
          exact absurd hj (by simp)
        · rw [show (resetCurrentData (setCurrentTo i (stopCurrent (advanceDeadline i s)))).armed
              = Function.update s.armed s.currentSensor false from rfl,
            Function.update_noteq hc] at hj
          exact absurd (h j hj) hc
      · exact armedInv_fire i s h
    exact ⟨inv, key s' inv⟩
  · intro s i h j
    show Function.update s.armed s.currentSensor false j = false
    by_cases hc : j = s.currentSensor
    · rw [hc, Function.update_same]
    · rw [Function.update_noteq hc]
      cases hb : s.armed j
      · rfl
      · exact absurd (h j hb) hc
  · intro v r s
    refine ⟨?_, ?_, ?_, ?_⟩
    · cases v <;> rfl
    · cases v <;> rfl
    · cases v <;> rfl
    · intro j hj
      cases v
      · rfl
      · show Function.update s.data s.currentSensor (r / US_ROUNDTRIP_CM) j = s.data j
        exact Function.update_noteq hj _ _

/-- C6 witness: the invariant at the initial state, at a micro-instant of
a firing transition, at the instant just before arming, and the handler's
non-interference on another index. -/
theorem c6_single_armed_witness :
    ArmedInv (initState 0)
    ∧ (ArmedInv (stopCurrent (advanceDeadline 0 (initState 0)))
        ∧ AtMostOneArmed (stopCurrent (advanceDeadline 0 (initState 0))))
    ∧ (setCurrentTo 1 (stopCurrent (advanceDeadline 1 (initState 0)))).armed 0 = false
    ∧ (echoCheck true 100 (initState 0)).data 2 = (initState 0).data 2 :=
  ⟨c6_single_armed.1 (initState 0) (Reachable.init 0),
   c6_single_armed.2.1 (initState 0) 0 (by decide) _ (by simp [fireStates]),
   c6_single_armed.2.2.1 (initState 0) 1 (by decide) 0,
   (c6_single_armed.2.2.2 true 100 (initState 0)).2.2.2 2 (by decide)⟩

/-- C8: `setup()` staggers the deadlines as `base + i·T` (base =
`millis()+75`, `T = PING_INTERVAL`); every firing advances the fired
sensor's deadline by exactly `3T`; and under nominal timing iteration `k`
arms exactly sensor `k % 3` — strict cyclic order 0,1,2,0,1,2,… — with
the iterations arming the same sensor exactly `3T` apart. -/
theorem c8_cyclic_schedule (t0 : Nat) :
    (∀ i : Fin 3, (initState t0).pingTimer i = (t0 + 75) + i.val * PING_INTERVAL)
    ∧ (∀ (i : Fin 3) (s : CarState),
        (sensorFire i s).1.pingTimer i = s.pingTimer i + 3 * PING_INTERVAL)
    ∧ (∀ k : Nat, (nominalEvents t0 k).filter isArm
        = [Event.arm ⟨k % 3, Nat.mod_lt k (by omega)⟩])
    ∧ (∀ k : Nat, nominalTime t0 (k + 3) = nominalTime t0 k + 3 * PING_INTERVAL) := by
  refine ⟨?_, ?_, ?_, ?_⟩
  · intro i
    rcases i with ⟨iv, hiv⟩
    interval_cases iv <;>
      simp [initState, initTimerAux, PING_INTERVAL]
  · intro i s
    rw [sensorFire_pingTimer_self]
    simp only [PING_INTERVAL, NUM_SENSORS]
  · intro k
    rw [nominalEvents_eq, sensorFire_filter_arm]
  · intro k
    simp only [nominalTime, PING_INTERVAL]
    omega

/-- C10: from the initial state (`currentSensor = 0`, nothing armed) the
first firing of sensor 0's deadline — nominal iteration 0 — emits no
report; no report is emitted in any of the first three iterations (one
full 0,1,2 cycle); the first report happens at sensor 0's second arming
(iteration 3), when the previously active sensor is sensor 2. -/
theorem c10_no_report_before_full_cycle (t0 : Nat) :
    ((nominalEvents t0 0).filter isArm = [Event.arm 0]
      ∧ (nominalEvents t0 0).countP isReport = 0)
    ∧ (∀ k : Nat, k < 3 → (nominalEvents t0 k).countP isReport = 0)
    ∧ ((nominalEvents t0 3).filter isArm = [Event.arm 0]
      ∧ (nominalState t0 3).currentSensor.val = 2
      ∧ (nominalEvents t0 3).countP isReport = 1) := by
  have hrep : ∀ k : Nat, (nominalEvents t0 k).countP isReport
      = if k % 3 = 0 ∧ (k - 1) % 3 = 2 then 1 else 0 := by
    intro k
    rw [nominalEvents_eq, sensorFire_report_count, (nominal_inv t0 k).2]
    simp [NUM_SENSORS]
  refine ⟨⟨?_, ?_⟩, ?_, ?_, ?_, ?_⟩
  · rw [nominalEvents_eq, sensorFire_filter_arm]; decide
  · rw [hrep 0]; decide
  · intro k hk
    rw [hrep k]
    interval_cases k <;> decide
  · rw [nominalEvents_eq, sensorFire_filter_arm]; decide
  · exact (nominal_inv t0 3).2
  · rw [hrep 3]; decide

/-- C10 witness: in the nominal run from `t0 = 0`, iteration 1 emits no
report and iteration 3 emits one. -/
theorem c10_no_report_before_full_cycle_witness :
    (nominalEvents 0 1).countP isReport = 0
    ∧ (nominalEvents 0 3).countP isReport = 1 :=
  ⟨(c10_no_report_before_full_cycle 0).2.1 1 (by omega),
   (c10_no_report_before_full_cycle 0).2.2.2.2⟩

/-- C1: a firing transition that re-arms sensor 0 while the previously
active sensor is 2 produces exactly the event sequence in which the
single report comes strictly after sensor 2's slot (it is the most recent
`setCur`) and strictly before sensor 0's reading is reset for the new
cycle; every other transition emits no report; and in any run from the
initial state, every report is emitted while the most recent slot
transition is sensor 2's. -/
theorem c1_report_once_per_cycle :
    (∀ (i : Fin 3) (s : CarState),
      (i.val = 0 ∧ s.currentSensor.val = 2 →
        (sensorFire i s).2
          = [Event.deadline 0 (s.pingTimer 0 + PING_INTERVAL * NUM_SENSORS),
             Event.report (s.data 0) (s.data 1) (s.data 2),
             Event.stop 2, Event.setCur 0, Event.reset 0, Event.arm 0])
      ∧ (¬(i.val = 0 ∧ s.currentSensor.val = 2) →
          (sensorFire i s).2.countP isReport = 0))
    ∧ (∀ (t0 : Nat) (times : List Nat),
        reportsAfterSlot2 none (runLoop times (initState t0)).2 = true) := by
  constructor
  · intro i s
    constructor
    · rintro ⟨h0, h2⟩
      have hi : i = 0 := Fin.ext h0
      have hc : s.currentSensor = 2 := Fin.ext h2
      subst hi
      unfold sensorFire
      rw [if_pos ⟨h0, h2⟩, hc]
      simp
    · intro hg
      have hg' : ¬(i.val = 0 ∧ s.currentSensor.val = NUM_SENSORS - 1) := hg
      rw [sensorFire_report_count, if_neg hg']
  · intro t0 times
    exact runLoop_trace_ok times (initState t0) none (Or.inr ⟨rfl, rfl⟩)

/-- C1 witness: the reporting transition at a concrete state with sensor
2 previously active, and a non-reporting one (sensor 1 fires). -/
theorem c1_report_once_per_cycle_witness :
    (sensorFire 0 curTwoState).2
      = [Event.deadline 0 (curTwoState.pingTimer 0 + PING_INTERVAL * NUM_SENSORS),
         Event.report (curTwoState.data 0) (curTwoState.data 1) (curTwoState.data 2),
         Event.stop 2, Event.setCur 0, Event.reset 0, Event.arm 0]
    ∧ (sensorFire 1 curTwoState).2.countP isReport = 0 :=
  ⟨(c1_report_once_per_cycle.1 0 curTwoState).1 ⟨rfl, rfl⟩,
   (c1_report_once_per_cycle.1 1 curTwoState).2 (by decide)⟩
